import Mathlib

/-!
Verification of the video-transcoder repository (krelinga/video-transcoder).

This file gives a shallow embedding of the parts of the Go source relevant to
the frozen claims, and proves or refutes each claim against that embedding.

Modelling conventions:
* Go `time.Duration` (int64 nanoseconds) is modelled as `ℤ`.
* Go `float64` progress arithmetic is modelled as exact rational arithmetic
  (`ℚ`); the properties at stake (membership in an interval, clamping,
  division-guard behaviour) do not hinge on IEEE rounding.
* Go `[]byte` is modelled as `List Nat`; `uuid.UUID` as an opaque `String`.
* Database effects are modelled explicitly: a transaction is a list of
  effects applied atomically, a non-transactional write is a single step.
  Interruption of the coordinator is modelled by executing only a prefix of
  its step list (a transaction either runs whole or not at all).
-/

namespace VideoTranscoder

/-! ## Data model (src/internal/jobs.go) -/

/-- `internal.TranscodeJobStatus` (src/internal/jobs.go): progress percentage
(0-100) plus an optional error message. -/
structure TranscodeJobStatus where
  progress : ℚ
  error : Option String
deriving DecidableEq, Repr

/-- `internal.TranscodeJobArgs` (src/internal/jobs.go): the payload of a
transcode queue job. -/
structure TranscodeJobArgs where
  uuid : String
  sourcePath : String
  destinationPath : String
  profile : String
  webhookURI : Option String
  webhookToken : List Nat
  heartbeatWebhookURI : Option String
deriving DecidableEq, Repr

/-- `internal.WebhookJobArgs` (src/internal/jobs.go): the payload of a webhook
notification job. -/
structure WebhookJobArgs where
  uri : String
  token : List Nat
  uuid : String
  status : Option TranscodeJobStatus
  isHeartbeat : Bool
deriving DecidableEq, Repr

/-! ## ffmpeg progress parsing (src/internal/transcoder.go)

`parseFfmpegProgress` scans a log line with the Go regular expression
`time=(\d{2}):(\d{2}):(\d{2})\.(\d{2})` and, on a match with a nonzero
pre-probed total duration, divides elapsed time by total duration, clamping
the quotient at 1.0.  The regex search is modelled character-for-character:
a match needs the literal `time=` followed by two digits, a colon, two
digits, a colon, two digits, a dot and two digits, and the leftmost such
occurrence wins (Go's `FindStringSubmatch` semantics). -/

/-- Numeric value of a two-digit group, as `strconv.Atoi` parses it. -/
def twoDigits (a b : Char) : Nat :=
  (a.toNat - 48) * 10 + (b.toNat - 48)

/-- Try to match `time=\d{2}:\d{2}:\d{2}\.\d{2}` at the head of the character
list, returning the four captured groups. -/
def matchTimeAt : List Char → Option (Nat × Nat × Nat × Nat)
  | 't' :: 'i' :: 'm' :: 'e' :: '=' ::
    h1 :: h2 :: ':' :: m1 :: m2 :: ':' :: s1 :: s2 :: '.' :: c1 :: c2 :: _ =>
      if h1.isDigit && h2.isDigit && m1.isDigit && m2.isDigit &&
         s1.isDigit && s2.isDigit && c1.isDigit && c2.isDigit then
        some (twoDigits h1 h2, twoDigits m1 m2, twoDigits s1 s2, twoDigits c1 c2)
      else
        none
  | _ => none

/-- Leftmost match of the `timeRegex` pattern in a character list
(`timeRegex.FindStringSubmatch`). -/
def findTimeMatch : List Char → Option (Nat × Nat × Nat × Nat)
  | [] => none
  | c :: rest =>
    match matchTimeAt (c :: rest) with
    | some r => some r
    | none => findTimeMatch rest

/-- Elapsed nanoseconds encoded by the four captured groups, exactly as the
Go code combines them: hours, minutes, seconds and centiseconds. -/
def elapsedNs (h m s c : Nat) : ℤ :=
  (h : ℤ) * 3600000000000 + (m : ℤ) * 60000000000 +
    (s : ℤ) * 1000000000 + (c : ℤ) * 10000000

/-- `parseFfmpegProgress` (src/internal/transcoder.go lines 96-121): returns
`(0, false)` when the regex does not match or the total duration is zero;
otherwise the elapsed/total quotient clamped at 1, paired with `true`. -/
def parseFfmpegProgress (line : String) (totalDuration : ℤ) : ℚ × Bool :=
  match findTimeMatch line.toList with
  | none => (0, false)
  | some (h, m, s, c) =>
    if totalDuration = 0 then (0, false)
    else if 1 < (elapsedNs h m s c : ℚ) / (totalDuration : ℚ) then (1, true)
    else ((elapsedNs h m s c : ℚ) / (totalDuration : ℚ), true)

/-- Values handed to the progress callback by `ffmpegTranscoder.Transcode`
(src/internal/transcoder.go lines 168-176): for every scanned stderr line on
which `parseFfmpegProgress` reports a match, the parsed fraction is multiplied
by 100 before the callback is invoked. -/
def ffmpegCallbackValues (lines : List String) (totalDuration : ℤ) : List ℚ :=
  lines.filterMap fun line =>
    match parseFfmpegProgress line totalDuration with
    | (p, true) => some (p * 100)
    | (_, false) => none

/-! ## HandBrake progress parsing (src/internal/transcoder.go lines 202-273)

`handbrakeTranscoder.Transcode` scans stdout lines, accumulating a
brace-balanced block that starts at a line with the `Progress:` label; once
the braces balance it unmarshals the block and, when the reported state is
`WORKING`, invokes the callback with the reported fraction times 100.
`json.Unmarshal` of the accumulated block is abstracted as a parameter
`parse : String → Option HandbrakeProgress` (a `none` result models an
unmarshalling error, which the Go code skips). -/

/-- The fields of HandBrake's progress JSON that the code reads:
`State` and `Working.Progress`. -/
structure HandbrakeProgress where
  state : String
  workingProgress : ℚ
deriving DecidableEq, Repr

/-- Scanner state of the brace-balanced block accumulator: `jsonBuffer`,
`inProgressBlock` and `braceCount` of the Go loop. -/
structure HBScanState where
  buffer : String
  inProgressBlock : Bool
  braceCount : ℤ
deriving DecidableEq, Repr

/-- `strings.Count(s, left) - strings.Count(s, right)` for the two brace
characters, as the Go loop adjusts `braceCount` per line. -/
def braceDelta (s : String) : ℤ :=
  (s.toList.count '{' : ℤ) - (s.toList.count '}' : ℤ)

/-- One iteration of the scan loop in `handbrakeTranscoder.Transcode`:
returns the next scanner state and the callback values (fraction × 100)
emitted for this line. -/
def hbProcessLine (parse : String → Option HandbrakeProgress)
    (st : HBScanState) (line : String) : HBScanState × List ℚ :=
  if line.startsWith "Progress:" then
    (⟨(line.drop 9).trim, true, braceDelta ((line.drop 9).trim)⟩, [])
  else if st.inProgressBlock then
    if st.braceCount + braceDelta line = 0 then
      match parse (st.buffer ++ line) with
      | none => (⟨st.buffer ++ line, false, st.braceCount + braceDelta line⟩, [])
      | some p =>
        if p.state = "WORKING" then
          (⟨st.buffer ++ line, false, st.braceCount + braceDelta line⟩,
            [p.workingProgress * 100])
        else
          (⟨st.buffer ++ line, false, st.braceCount + braceDelta line⟩, [])
    else
      (⟨st.buffer ++ line, true, st.braceCount + braceDelta line⟩, [])
  else
    (st, [])

/-- Run the scan loop over a list of stdout lines, collecting every value
handed to the progress callback. -/
def hbRun (parse : String → Option HandbrakeProgress) :
    HBScanState → List String → List ℚ
  | _, [] => []
  | st, line :: rest =>
    (hbProcessLine parse st line).2 ++ hbRun parse (hbProcessLine parse st line).1 rest

/-- Initial scanner state of `handbrakeTranscoder.Transcode`. -/
def hbInit : HBScanState := ⟨"", false, 0⟩

/-- Values handed to the progress callback by
`handbrakeTranscoder.Transcode` over a whole stdout stream. -/
def handbrakeCallbackValues (parse : String → Option HandbrakeProgress)
    (lines : List String) : List ℚ :=
  hbRun parse hbInit lines

/-! ## Preview resolution selection (src/internal/transcoder.go lines 138-143)

`ffmpegTranscoder.Transcode` fixes the target height at 240 and derives the
target width with Go integer arithmetic: `int((width * targetHeight) / height)`
followed by an increment when the result is odd.  Go's `/` and `%` on `int`
truncate toward zero, which is `Int.tdiv` / `Int.tmod` in Lean. -/

/-- The fixed preview target height. -/
def targetHeight : ℤ := 240

/-- The derived preview target width. -/
def ffmpegTargetWidth (width height : ℤ) : ℤ :=
  if ((width * targetHeight).tdiv height).tmod 2 ≠ 0 then
    (width * targetHeight).tdiv height + 1
  else
    (width * targetHeight).tdiv height

/-! ## Queue-substrate effect model (src/worker/webhook.go)

The worker's terminal and heartbeat paths issue database work of two shapes:
an immediate non-transactional write (`river.RecordOutput`), and a
transaction that is committed as a whole (`tx.Begin` … `tx.Commit`, with
`defer tx.Rollback` discarding it entirely on interruption).  A coordinator
run is a list of such steps; interruption is modelled by executing only a
prefix of the list, so a transaction either takes full effect or none. -/

/-- A primitive database effect inside a transaction: insert a webhook job
(with optional explicit `MaxAttempts`), mark the transcode job complete
(`river.JobCompleteTx`), or update the job's output record
(`client.JobUpdateTx`). -/
inductive DBEffect where
  | insertWebhookJob (args : WebhookJobArgs) (maxAttempts : Option Nat)
  | completeJob
  | setOutput (status : TranscodeJobStatus)
deriving DecidableEq, Repr

/-- The observable database state for one transcode job: its output record,
the enqueued webhook notification jobs (with their optional `MaxAttempts`
override), and whether the queue job has been completed. -/
structure DBState where
  output : Option TranscodeJobStatus
  webhookJobs : List (WebhookJobArgs × Option Nat)
  jobCompleted : Bool
deriving DecidableEq, Repr

/-- One step of the coordinator: a non-transactional output write
(`river.RecordOutput`) or an atomically committed transaction. -/
inductive CoordinatorStep where
  | recordOutput (status : TranscodeJobStatus)
  | txCommit (effects : List DBEffect)
deriving DecidableEq, Repr

/-- Apply one primitive effect to the database state. -/
def applyEffect (s : DBState) : DBEffect → DBState
  | .insertWebhookJob a opts => { s with webhookJobs := s.webhookJobs ++ [(a, opts)] }
  | .completeJob => { s with jobCompleted := true }
  | .setOutput st => { s with output := some st }

/-- Apply one coordinator step; a committed transaction applies all of its
effects at once. -/
def applyStep (s : DBState) : CoordinatorStep → DBState
  | .recordOutput st => { s with output := some st }
  | .txCommit effs => effs.foldl applyEffect s

/-- Run a list of coordinator steps in order. -/
def runSteps (s : DBState) (steps : List CoordinatorStep) : DBState :=
  steps.foldl applyStep s

/-- Database state before the worker acts on the job. -/
def dbInit : DBState := ⟨none, [], false⟩

/-- The final status record the worker builds on a terminal outcome
(src/worker/webhook.go lines 143-166): on failure, the last progress with the
error text; on success, progress 100 with no error. -/
def terminalStatus (outcome : Option String) (lastProgress : ℚ) : TranscodeJobStatus :=
  match outcome with
  | some errMsg => ⟨lastProgress, some errMsg⟩
  | none => ⟨100, none⟩

/-- The webhook job payload built by `enqueueWebhook`
(src/worker/webhook.go lines 184-190). -/
def completionWebhookArgs (args : TranscodeJobArgs) (uri : String)
    (status : TranscodeJobStatus) : WebhookJobArgs :=
  ⟨uri, args.webhookToken, args.uuid, some status, false⟩

/-- The database steps of `TranscodeWorker.Work` after the transcoder returns
(src/worker/webhook.go lines 143-181): first `river.RecordOutput` of the
final status (non-transactional), then — when a completion webhook is
configured — the `enqueueWebhook` transaction that inserts the webhook job
(default retry policy, `nil` `InsertOpts`) and completes the queue job. -/
def workTerminalSteps (args : TranscodeJobArgs) (outcome : Option String)
    (lastProgress : ℚ) : List CoordinatorStep :=
  match args.webhookURI with
  | some uri =>
    [CoordinatorStep.recordOutput (terminalStatus outcome lastProgress),
     CoordinatorStep.txCommit
       [DBEffect.insertWebhookJob
          (completionWebhookArgs args uri (terminalStatus outcome lastProgress)) none,
        DBEffect.completeJob]]
  | none => [CoordinatorStep.recordOutput (terminalStatus outcome lastProgress)]

/-- The webhook job payload built by `enqueueHeartbeatWebhook`
(src/worker/webhook.go lines 226-232): same fields, flagged as heartbeat. -/
def heartbeatWebhookArgs (args : TranscodeJobArgs) (uri : String)
    (status : TranscodeJobStatus) : WebhookJobArgs :=
  ⟨uri, args.webhookToken, args.uuid, some status, true⟩

/-- The database steps of `enqueueHeartbeatWebhook`
(src/worker/webhook.go lines 225-264): one transaction inserting the
heartbeat webhook job with `InsertOpts.MaxAttempts = 1` and updating the
job's output record, with no completion of the queue job. -/
def enqueueHeartbeatSteps (args : TranscodeJobArgs) (status : TranscodeJobStatus) :
    List CoordinatorStep :=
  match args.heartbeatWebhookURI with
  | some uri =>
    [CoordinatorStep.txCommit
       [DBEffect.insertWebhookJob (heartbeatWebhookArgs args uri status) (some 1),
        DBEffect.setOutput status]]
  | none => []

/-! ## Progress throttle (src/worker/webhook.go lines 98-135)

`TranscodeWorker.Work` wraps the raw progress callback with a throttle whose
state is the last-acted timestamp, the last-acted progress value and a
first-heartbeat-sent flag.  Times are nanosecond timestamps (`ℤ`); the model
is fault-free (the database writes the callback issues succeed, as the claim
concerns the throttling decision, not infrastructure failures). -/

/-- The throttle's mutable state (`lastUpdateTime`, `lastProgress`,
`firstHeartbeatSent`). -/
structure ThrottleState where
  lastUpdateTime : ℤ
  lastProgress : ℚ
  firstHeartbeatSent : Bool
deriving DecidableEq, Repr

/-- A persisted progress action: a heartbeat enqueue
(`enqueueHeartbeatWebhook`) or a plain output write (`river.RecordOutput`). -/
inductive ProgressAction where
  | heartbeat (status : TranscodeJobStatus)
  | recordOutput (status : TranscodeJobStatus)
deriving DecidableEq, Repr

/-- `updateInterval := 30 * time.Second`, in nanoseconds. -/
def updateInterval : ℤ := 30000000000

/-- One invocation of the worker's throttled `progressCallback`
(src/worker/webhook.go lines 104-135): act when the interval has elapsed
since the last action or a configured heartbeat webhook has not yet fired;
acting sends a heartbeat when a heartbeat webhook is configured and a plain
output write otherwise, and refreshes the throttle state. -/
def progressCallback (heartbeatConfigured : Bool) (st : ThrottleState)
    (now : ℤ) (currentProgress : ℚ) : ThrottleState × List ProgressAction :=
  if updateInterval ≤ now - st.lastUpdateTime ∨
      (heartbeatConfigured = true ∧ st.firstHeartbeatSent = false) then
    if heartbeatConfigured then
      (⟨now, currentProgress, true⟩, [ProgressAction.heartbeat ⟨currentProgress, none⟩])
    else
      (⟨now, currentProgress, st.firstHeartbeatSent⟩,
        [ProgressAction.recordOutput ⟨currentProgress, none⟩])
  else
    (st, [])

/-- Actions persisted over a sequence of raw ticks, each a (timestamp,
progress) pair, threading the throttle state. -/
def runTicksActions (heartbeatConfigured : Bool) (st : ThrottleState) :
    List (ℤ × ℚ) → List ProgressAction
  | [] => []
  | tick :: rest =>
    (progressCallback heartbeatConfigured st tick.1 tick.2).2 ++
      runTicksActions heartbeatConfigured
        (progressCallback heartbeatConfigured st tick.1 tick.2).1 rest

/-- Throttle state at worker start (src/worker/webhook.go lines 99-102):
`lastUpdateTime := time.Now()`, `lastProgress := 0`,
`firstHeartbeatSent := false`. -/
def initialThrottleState (startTime : ℤ) : ThrottleState := ⟨startTime, 0, false⟩

/-! ## Notification delivery payload (src/worker/webhook.go lines 16-46)

`WebhookWorker.Work` builds a `WebhookPayload` from the job args and JSON
marshals it.  `Token` and `Error` and `Progress` carry `omitempty`, so the
token field is absent when the byte slice is empty and the optional fields
are absent when their pointers are nil; `UUID` has no `omitempty` and is
always serialized. -/

/-- The in-memory `WebhookPayload` value built by `WebhookWorker.Work`
(src/worker/webhook.go lines 32-41): error copied from the status snapshot
when present, progress copied only for heartbeat notifications. -/
structure WebhookPayload where
  token : List Nat
  uuid : String
  error : Option String
  progress : Option ℚ
deriving DecidableEq, Repr

/-- Build the payload exactly as `WebhookWorker.Work` does. -/
def buildWebhookPayload (args : WebhookJobArgs) : WebhookPayload :=
  { token := args.token
    uuid := args.uuid
    error :=
      match args.status with
      | some st => st.error
      | none => none
    progress :=
      match args.status with
      | some st => if args.isHeartbeat then some st.progress else none
      | none => none }

/-- Which JSON keys appear in the marshalled body. -/
structure PayloadFields where
  tokenPresent : Bool
  uuidPresent : Bool
  errorPresent : Bool
  progressPresent : Bool
deriving DecidableEq, Repr

/-- Field presence under `encoding/json` with the struct tags of
`WebhookPayload`: `token,omitempty` is dropped when the slice is empty,
`uuid` is unconditional, `error,omitempty` and `progress,omitempty` are
dropped when the pointer is nil. -/
def marshalledFields (p : WebhookPayload) : PayloadFields :=
  ⟨!p.token.isEmpty, true, p.error.isSome, p.progress.isSome⟩

/-! ## Job submission gatekeeper (src/unnamed/part_004, `CreateTranscode`)

The REST handler validates the profile, then in a single transaction checks
the `uuid_job_mapping` table, inserts the queue job and inserts the mapping
row.  The model is fault-free (queries and inserts succeed); the
body-missing 400 path is transport glue and out of the claims' scope. -/

/-- A validated create request (the deserialized request body). -/
structure CreateRequest where
  uuid : String
  sourcePath : String
  destinationPath : String
  profile : String
  webhookURI : Option String
  webhookToken : List Nat
  heartbeatWebhookURI : Option String
deriving DecidableEq, Repr

/-- `internal.Profile.IsValid` (src/internal/profiles.go): only the
`preview` profile is recognized. -/
def profileIsValid (p : String) : Bool := p = "preview"

/-- The handler's outcome, as the distinct response codes it returns:
201 Created, 400 invalid profile, 409 duplicate UUID. -/
inductive CreateResponse where
  | created
  | invalidProfile
  | duplicate
deriving DecidableEq, Repr

/-- Server-side persistent state: the `uuid_job_mapping` rows, the river
job rows, and the next job id the substrate will assign. -/
structure ServerState where
  mapping : List (String × Nat)
  riverJobs : List (Nat × TranscodeJobArgs)
  nextJobID : Nat
deriving DecidableEq, Repr

/-- `SELECT river_job_id FROM uuid_job_mapping WHERE uuid = $1`. -/
def lookupMapping : List (String × Nat) → String → Option Nat
  | [], _ => none
  | row :: rest, q => if row.1 = q then some row.2 else lookupMapping rest q

/-- The `TranscodeJobArgs` the handler builds from the request body. -/
def requestJobArgs (r : CreateRequest) : TranscodeJobArgs :=
  ⟨r.uuid, r.sourcePath, r.destinationPath, r.profile, r.webhookURI,
    r.webhookToken, r.heartbeatWebhookURI⟩

/-- `CreateTranscode` (src/unnamed/part_004 lines 34-120): validate the
profile, then transactionally look up the UUID, failing with the duplicate
condition and no side effects when found, and otherwise insert the river job
and the mapping row and commit. -/
def createTranscode (s : ServerState) (r : CreateRequest) :
    CreateResponse × ServerState :=
  if profileIsValid r.profile = false then (CreateResponse.invalidProfile, s)
  else if (lookupMapping s.mapping r.uuid).isSome then (CreateResponse.duplicate, s)
  else
    (CreateResponse.created,
     ⟨(r.uuid, s.nextJobID) :: s.mapping,
      (s.nextJobID, requestJobArgs r) :: s.riverJobs,
      s.nextJobID + 1⟩)

/-! ## Status projection (src/unnamed/part_004, `mapRiverStateToTranscodeStatus`)

River's job lifecycle states and the four externally visible statuses.  The
Go switch's `default` arm (returning Pending) is unreachable over the eight
lifecycle states, all of which are matched by a named case. -/

/-- River's eight job lifecycle states (`rivertype.JobState`). -/
inductive JobState where
  | available
  | cancelled
  | completed
  | discarded
  | pending
  | retryable
  | running
  | scheduled
deriving DecidableEq, Repr

/-- The four externally visible statuses (`vtrest.TranscodeStatus`). -/
inductive TranscodeStatus where
  | pending
  | running
  | completed
  | failed
deriving DecidableEq, Repr

/-- `mapRiverStateToTranscodeStatus` (src/unnamed/part_004 lines 204-217). -/
def mapRiverStateToTranscodeStatus : JobState → TranscodeStatus
  | .available => .pending
  | .scheduled => .pending
  | .retryable => .pending
  | .pending => .pending
  | .running => .running
  | .completed => .completed
  | .discarded => .failed
  | .cancelled => .failed

/-! ## Concrete example inputs used by counterexamples and witnesses -/

/-- A transcode job with a completion webhook configured and no heartbeat
webhook. -/
def c1ExampleArgs : TranscodeJobArgs :=
  ⟨"7c9e6679-7425-40de-944b-e07fc1f90ae7", "/media/in.mkv", "/media/out.mkv",
    "preview", some "http://callback.example/done", [1, 2, 3], none⟩

/-- A transcode job with a heartbeat webhook configured. -/
def c5ExampleArgs : TranscodeJobArgs :=
  ⟨"16fd2706-8baf-433b-82eb-8c7fada847da", "/media/in.mkv", "/media/out.mkv",
    "preview", none, [9], some "http://callback.example/beat"⟩

/-- A webhook notification job whose opaque token is empty. -/
def c7ExampleArgs : WebhookJobArgs :=
  ⟨"http://callback.example/notify", [], "6ba7b810-9dad-11d1-80b4-00c04fd430c8",
    some ⟨100, none⟩, false⟩

/-- An empty server state. -/
def c2ExampleState : ServerState := ⟨[], [], 0⟩

/-- A first submission. -/
def c2Request1 : CreateRequest :=
  ⟨"550e8400-e29b-41d4-a716-446655440000", "/media/a.mkv", "/media/b.mkv",
    "preview", none, [], none⟩

/-- A second submission reusing the first submission's UUID. -/
def c2Request2 : CreateRequest :=
  ⟨"550e8400-e29b-41d4-a716-446655440000", "/media/c.mkv", "/media/d.mkv",
    "preview", none, [], none⟩

/-! ## Helper lemmas about the parsers -/

/-- The elapsed time reconstructed from the four captured digit groups is
never negative. -/
theorem elapsedNs_nonneg (h m s c : Nat) : 0 ≤ elapsedNs h m s c := by
  unfold elapsedNs
  positivity

/-- Whenever `parseFfmpegProgress` reports a match against a nonnegative
total duration, the returned fraction lies in `[0, 1]`. -/
theorem parseFfmpegProgress_bounds (line : String) (d : ℤ) (hd : 0 ≤ d)
    (h : (parseFfmpegProgress line d).2 = true) :
    0 ≤ (parseFfmpegProgress line d).1 ∧ (parseFfmpegProgress line d).1 ≤ 1 := by
  rcases hfind : findTimeMatch line.toList with _ | ⟨hh, mm, ss, cc⟩ <;>
    simp only [parseFfmpegProgress, hfind] at h ⊢
  · simp at h
  · by_cases hzero : d = 0
    · simp [hzero] at h
    · have hdpos : (0 : ℚ) < (d : ℚ) := by
        have h0 : 0 < d := lt_of_le_of_ne hd (Ne.symm hzero)
        exact_mod_cast h0
      have hnum : (0 : ℚ) ≤ (elapsedNs hh mm ss cc : ℚ) := by
        exact_mod_cast elapsedNs_nonneg hh mm ss cc
      rw [if_neg hzero]
      by_cases hclamp : 1 < (elapsedNs hh mm ss cc : ℚ) / (d : ℚ)
      · rw [if_pos hclamp]
        norm_num
      · rw [if_neg hclamp]
        exact ⟨div_nonneg hnum (le_of_lt hdpos), le_of_not_lt hclamp⟩

/-- Every callback value of the single-line HandBrake scan step is the
`WORKING` fraction of a successfully parsed block, times 100. -/
theorem hbProcessLine_values (parse : String → Option HandbrakeProgress)
    (st : HBScanState) (line : String) (v : ℚ)
    (hv : v ∈ (hbProcessLine parse st line).2) :
    ∃ s p, parse s = some p ∧ p.state = "WORKING" ∧ v = p.workingProgress * 100 := by
  unfold hbProcessLine at hv
  split at hv
  · simp at hv
  · split at hv
    · split at hv
      · split at hv
        · simp at hv
        · rename_i p hparse
          split at hv
          · rename_i hstate
            refine ⟨st.buffer ++ line, p, hparse, hstate, ?_⟩
            simpa using hv
          · simp at hv
      · simp at hv
    · simp at hv

/-- Every callback value of a whole HandBrake scan run is the `WORKING`
fraction of a successfully parsed block, times 100. -/
theorem hbRun_values (parse : String → Option HandbrakeProgress)
    (st : HBScanState) (lines : List String) (v : ℚ)
    (hv : v ∈ hbRun parse st lines) :
    ∃ s p, parse s = some p ∧ p.state = "WORKING" ∧ v = p.workingProgress * 100 := by
  induction lines generalizing st with
  | nil => simp [hbRun] at hv
  | cons line rest ih =>
    simp only [hbRun] at hv
    rw [List.mem_append] at hv
    rcases hv with hhd | htl
    · exact hbProcessLine_values parse st line v hhd
    · exact ih _ htl

/-! ## Helper lemmas about the gatekeeper -/

/-- An invalid profile is rejected with no state change. -/
theorem createTranscode_invalid (s : ServerState) (r : CreateRequest)
    (hp : profileIsValid r.profile = false) :
    createTranscode s r = (CreateResponse.invalidProfile, s) := by
  unfold createTranscode
  rw [if_pos hp]

/-- A valid request whose UUID is already mapped is rejected as a duplicate
with no state change. -/
theorem createTranscode_dup (s : ServerState) (r : CreateRequest)
    (hp : profileIsValid r.profile = true)
    (hfound : (lookupMapping s.mapping r.uuid).isSome = true) :
    createTranscode s r = (CreateResponse.duplicate, s) := by
  unfold createTranscode
  rw [if_neg (by simp [hp]), if_pos hfound]

/-- A successful creation installs exactly one new mapping row and one new
queue job. -/
theorem createTranscode_created_state (s : ServerState) (r : CreateRequest)
    (h : (createTranscode s r).1 = CreateResponse.created) :
    (createTranscode s r).2 =
      ⟨(r.uuid, s.nextJobID) :: s.mapping,
       (s.nextJobID, requestJobArgs r) :: s.riverJobs,
       s.nextJobID + 1⟩ := by
  unfold createTranscode at h ⊢
  by_cases hp : profileIsValid r.profile = false
  · rw [if_pos hp] at h
    simp at h
  · rw [if_neg hp] at h ⊢
    by_cases hfound : (lookupMapping s.mapping r.uuid).isSome = true
    · rw [if_pos hfound] at h
      simp at h
    · rw [if_neg hfound]

/-! ## Helper lemmas about the throttle -/

/-- When the interval has not elapsed and no first heartbeat is owed, a tick
is dropped: no action, state untouched. -/
theorem progressCallback_no_act (hb : Bool) (st : ThrottleState) (now : ℤ) (p : ℚ)
    (h1 : ¬ updateInterval ≤ now - st.lastUpdateTime)
    (h2 : hb = false ∨ st.firstHeartbeatSent = true) :
    progressCallback hb st now p = (st, []) := by
  have hcond : ¬(updateInterval ≤ now - st.lastUpdateTime ∨
      (hb = true ∧ st.firstHeartbeatSent = false)) := by
    rintro (h | ⟨hbt, hfs⟩)
    · exact h1 h
    · rcases h2 with h | h
      · rw [h] at hbt
        cases hbt
      · rw [h] at hfs
        cases hfs
  unfold progressCallback
  rw [if_neg hcond]

/-- With a heartbeat webhook configured and no heartbeat yet sent, a tick
acts immediately: one heartbeat action, flag set, state refreshed. -/
theorem progressCallback_heartbeat_first (st : ThrottleState) (now : ℤ) (p : ℚ)
    (hfirst : st.firstHeartbeatSent = false) :
    progressCallback true st now p =
      (⟨now, p, true⟩, [ProgressAction.heartbeat ⟨p, none⟩]) := by
  unfold progressCallback
  rw [if_pos (Or.inr ⟨rfl, hfirst⟩), if_pos rfl]

/-- After the first heartbeat, ticks arriving within the interval of the
last action are all dropped. -/
theorem runTicksActions_quiet (t0 : ℤ) (q : ℚ) (rest : List (ℤ × ℚ))
    (hq : ∀ tick ∈ rest, tick.1 - t0 < updateInterval) :
    runTicksActions true ⟨t0, q, true⟩ rest = [] := by
  induction rest with
  | nil => rfl
  | cons tick rest ih =>
    have hno := progressCallback_no_act true ⟨t0, q, true⟩ tick.1 tick.2
      (not_le.mpr (hq tick (List.mem_cons_self tick rest)))
      (Or.inr rfl)
    simp only [runTicksActions, hno]
    exact ih fun t ht => hq t (List.mem_cons_of_mem tick ht)

/-! ## Claim C1 -/

/-- Claim C1 counterexample.  The claim states that the persistence of the
final status record, the webhook enqueue and the job completion all happen
in a single transaction, so that an interruption before commit leaves none
of the three effects.  On the code, `river.RecordOutput` runs before and
outside the `enqueueWebhook` transaction: interrupting the coordinator after
its first step (before the transaction commits) leaves the final status
record persisted while no notification job exists and the job is not
complete — refuting "none of the three effects exists afterward". -/
theorem c1_counterexample :
    (runSteps dbInit ((workTerminalSteps c1ExampleArgs (some "boom") 37).take 1)).output =
      some ⟨37, some "boom"⟩ ∧
    (runSteps dbInit ((workTerminalSteps c1ExampleArgs (some "boom") 37).take 1)).webhookJobs = [] ∧
    (runSteps dbInit ((workTerminalSteps c1ExampleArgs (some "boom") 37).take 1)).jobCompleted =
      false :=
  ⟨rfl, rfl, rfl⟩

/-- Claim C1, amended.  For a terminal outcome with a completion webhook
configured: the webhook enqueue and the queue-job completion are atomic (at
every interruption point the job is complete exactly when the single
notification job carrying the final status exists), the final status record
is persisted by a separate earlier non-transactional write (so it already
exists at any point after the coordinator's first step), and a complete run
leaves all three effects. -/
theorem c1_amended_completion_atomicity (args : TranscodeJobArgs) (outcome : Option String)
    (lastProgress : ℚ) (uri : String) (h : args.webhookURI = some uri) (k : ℕ) :
    ((runSteps dbInit ((workTerminalSteps args outcome lastProgress).take k)).jobCompleted = true ↔
      (runSteps dbInit ((workTerminalSteps args outcome lastProgress).take k)).webhookJobs =
        [(completionWebhookArgs args uri (terminalStatus outcome lastProgress), none)]) ∧
    (1 ≤ k →
      (runSteps dbInit ((workTerminalSteps args outcome lastProgress).take k)).output =
        some (terminalStatus outcome lastProgress)) ∧
    (2 ≤ k →
      (runSteps dbInit ((workTerminalSteps args outcome lastProgress).take k)).jobCompleted =
        true) := by
  simp only [workTerminalSteps, h]
  rcases k with _ | k
  · simp [runSteps, dbInit]
  · rcases k with _ | k
    · simp [runSteps, applyStep, dbInit]
    · simp [runSteps, applyStep, applyEffect, dbInit, List.take_succ_cons]

/-- Witness for the amended claim C1, at a concrete failed job with a
completion webhook and the full (uninterrupted) run. -/
theorem c1_amended_completion_atomicity_witness :
    ((runSteps dbInit ((workTerminalSteps c1ExampleArgs (some "boom") 37).take 2)).jobCompleted =
        true ↔
      (runSteps dbInit ((workTerminalSteps c1ExampleArgs (some "boom") 37).take 2)).webhookJobs =
        [(completionWebhookArgs c1ExampleArgs "http://callback.example/done"
            (terminalStatus (some "boom") 37), none)]) ∧
    (1 ≤ 2 →
      (runSteps dbInit ((workTerminalSteps c1ExampleArgs (some "boom") 37).take 2)).output =
        some (terminalStatus (some "boom") 37)) ∧
    (2 ≤ 2 →
      (runSteps dbInit ((workTerminalSteps c1ExampleArgs (some "boom") 37).take 2)).jobCompleted =
        true) :=
  c1_amended_completion_atomicity c1ExampleArgs (some "boom") 37
    "http://callback.example/done" rfl 2

/-! ## Claim C2 -/

/-- Claim C2: for a pair of Create submissions with the same external
identifier where the first succeeds, the later submission never succeeds,
leaves the server state (mapping rows and queue jobs) exactly as it was —
zero observable side effects — and, whenever it reaches the transactional
duplicate check (i.e. passes profile validation), fails with the distinct
duplicate-identifier Conflict condition. -/
theorem c2_duplicate_identifier_conflict (s : ServerState) (r1 r2 : CreateRequest)
    (huuid : r2.uuid = r1.uuid)
    (h1 : (createTranscode s r1).1 = CreateResponse.created) :
    ¬((createTranscode (createTranscode s r1).2 r2).1 = CreateResponse.created) ∧
    (createTranscode (createTranscode s r1).2 r2).2 = (createTranscode s r1).2 ∧
    (profileIsValid r2.profile = true →
      (createTranscode (createTranscode s r1).2 r2).1 = CreateResponse.duplicate) := by
  have hs1 := createTranscode_created_state s r1 h1
  have hfound : (lookupMapping ((createTranscode s r1).2).mapping r2.uuid).isSome = true := by
    rw [hs1]
    unfold lookupMapping
    rw [if_pos huuid.symm]
    rfl
  by_cases hp2 : profileIsValid r2.profile = false
  · rw [createTranscode_invalid _ r2 hp2]
    refine ⟨by simp, rfl, ?_⟩
    intro hv
    rw [hv] at hp2
    simp at hp2
  · have hp2' : profileIsValid r2.profile = true := by
      rcases hb : profileIsValid r2.profile
      · exact absurd hb hp2
      · rfl
    rw [createTranscode_dup _ r2 hp2' hfound]
    exact ⟨by simp, rfl, fun _ => rfl⟩

/-- Witness for claim C2: two concrete submissions sharing a UUID against an
empty server state. -/
theorem c2_duplicate_identifier_conflict_witness :
    ¬((createTranscode (createTranscode c2ExampleState c2Request1).2 c2Request2).1 =
        CreateResponse.created) ∧
    (createTranscode (createTranscode c2ExampleState c2Request1).2 c2Request2).2 =
      (createTranscode c2ExampleState c2Request1).2 ∧
    (profileIsValid c2Request2.profile = true →
      (createTranscode (createTranscode c2ExampleState c2Request1).2 c2Request2).1 =
        CreateResponse.duplicate) :=
  c2_duplicate_identifier_conflict c2ExampleState c2Request1 c2Request2 rfl (by decide)

/-! ## Claim C3 -/

/-- Claim C3 counterexample.  The claim states that every value passed to
the progress callback during Transcode lies in the interval `[0, 1]`.  On
the code, both variants multiply the parsed fraction by 100 before invoking
the callback: an ffmpeg stderr stream whose time marker equals the probed
total duration invokes the callback with the value 100, which exceeds 1. -/
theorem c3_counterexample :
    ffmpegCallbackValues ["frame=1 time=00:01:00.00 x"] 60000000000 = [100] ∧
    ¬ ((100 : ℚ) ≤ 1) := by
  constructor
  · have h : findTimeMatch ("frame=1 time=00:01:00.00 x").toList = some (0, 1, 0, 0) := by
      decide
    have hp : parseFfmpegProgress "frame=1 time=00:01:00.00 x" 60000000000 = (1, true) := by
      unfold parseFfmpegProgress
      rw [h]
      norm_num [elapsedNs]
    simp [ffmpegCallbackValues, hp]
  · norm_num

/-- Claim C3, amended: the callback receives a percentage, not a fraction.
Every value the ffmpeg variant passes to the callback lies in `[0, 100]`
(given the nonnegative probed total duration), and every value the
HandBrake variant passes lies in `[0, 100]` whenever the tool's parsed
`Working.Progress` fractions lie in `[0, 1]`. -/
theorem c3_amended_callback_percentage_range :
    (∀ (lines : List String) (d : ℤ) (v : ℚ), 0 ≤ d →
      v ∈ ffmpegCallbackValues lines d → 0 ≤ v ∧ v ≤ 100) ∧
    (∀ (parse : String → Option HandbrakeProgress) (lines : List String) (v : ℚ),
      (∀ s p, parse s = some p → 0 ≤ p.workingProgress ∧ p.workingProgress ≤ 1) →
      v ∈ handbrakeCallbackValues parse lines → 0 ≤ v ∧ v ≤ 100) := by
  constructor
  · intro lines d v hd hv
    unfold ffmpegCallbackValues at hv
    rw [List.mem_filterMap] at hv
    rcases hv with ⟨line, hline, heq⟩
    rcases hsp : parseFfmpegProgress line d with ⟨p, b⟩
    rw [hsp] at heq
    cases b
    · simp at heq
    · simp only [Option.some.injEq] at heq
      have hb := parseFfmpegProgress_bounds line d hd (by rw [hsp])
      rw [hsp] at hb
      subst heq
      constructor
      · nlinarith [hb.1]
      · nlinarith [hb.2]
  · intro parse lines v hbound hv
    rcases hbRun_values parse hbInit lines v hv with ⟨s, p, hparse, hstate, rfl⟩
    rcases hbound s p hparse with ⟨h0, h1⟩
    constructor
    · nlinarith
    · nlinarith

/-- Witness for the amended claim C3: a concrete half-way ffmpeg progress
line yields the callback value 50, which the theorem places in `[0, 100]`. -/
theorem c3_amended_callback_percentage_range_witness :
    (50 : ℚ) ∈ ffmpegCallbackValues ["time=00:00:30.00"] 60000000000 ∧
    ((0 : ℚ) ≤ 50 ∧ (50 : ℚ) ≤ 100) := by
  have h : findTimeMatch ("time=00:00:30.00").toList = some (0, 0, 30, 0) := by decide
  have hp : parseFfmpegProgress "time=00:00:30.00" 60000000000 = (1/2, true) := by
    unfold parseFfmpegProgress
    rw [h]
    norm_num [elapsedNs]
  have hmem : (50 : ℚ) ∈ ffmpegCallbackValues ["time=00:00:30.00"] 60000000000 := by
    simp [ffmpegCallbackValues, hp]
    norm_num
  exact ⟨hmem, c3_amended_callback_percentage_range.1 ["time=00:00:30.00"] 60000000000 50
    (by norm_num) hmem⟩

/-! ## Claim C4 -/

/-- Claim C4: a raw tick delivered to the worker's throttled callback
results in a persisted progress action exactly when the 30-second interval
has elapsed since the last action or a heartbeat webhook is configured and
no heartbeat has been sent; with a heartbeat webhook configured, a tick
arriving before any heartbeat acts immediately with exactly one heartbeat
delivery attempt and sets the flag; and over a whole run whose later ticks
all fall inside the interval, the first tick produces exactly one heartbeat
action and every other tick is silently dropped. -/
theorem c4_throttle_policy :
    (∀ (hb : Bool) (st : ThrottleState) (now : ℤ) (p : ℚ),
      (progressCallback hb st now p).2 ≠ [] ↔
        (updateInterval ≤ now - st.lastUpdateTime ∨
          (hb = true ∧ st.firstHeartbeatSent = false))) ∧
    (∀ (st : ThrottleState) (now : ℤ) (p : ℚ),
      st.firstHeartbeatSent = false →
      (progressCallback true st now p).2 = [ProgressAction.heartbeat ⟨p, none⟩] ∧
      (progressCallback true st now p).1.firstHeartbeatSent = true) ∧
    (∀ (startTime t0 : ℤ) (p0 : ℚ) (rest : List (ℤ × ℚ)),
      (∀ tick ∈ rest, tick.1 - t0 < updateInterval) →
      runTicksActions true (initialThrottleState startTime) ((t0, p0) :: rest) =
        [ProgressAction.heartbeat ⟨p0, none⟩]) := by
  refine ⟨?_, ?_, ?_⟩
  · intro hb st now p
    unfold progressCallback
    by_cases hcond : updateInterval ≤ now - st.lastUpdateTime ∨
        (hb = true ∧ st.firstHeartbeatSent = false)
    · rw [if_pos hcond]
      refine ⟨fun _ => hcond, fun _ => ?_⟩
      rcases hb <;> simp
    · rw [if_neg hcond]
      simp [hcond]
  · intro st now p hfirst
    rw [progressCallback_heartbeat_first st now p hfirst]
    exact ⟨rfl, rfl⟩
  · intro startTime t0 p0 rest hrest
    simp only [runTicksActions,
      progressCallback_heartbeat_first (initialThrottleState startTime) t0 p0 rfl]
    rw [runTicksActions_quiet t0 p0 rest hrest]
    simp

/-- Witness for claim C4: a concrete two-tick run with a heartbeat webhook,
the second tick one nanosecond after the first, produces exactly one
heartbeat action. -/
theorem c4_throttle_policy_witness :
    runTicksActions true (initialThrottleState 0) [(5, 1), (6, 2)] =
      [ProgressAction.heartbeat ⟨1, none⟩] :=
  c4_throttle_policy.2.2 0 5 1 [(6, 2)] (by decide)

/-! ## Claim C5 -/

/-- Claim C5: the heartbeat path is one transaction (any interrupted prefix
leaves the state untouched, a complete run applies everything) that enqueues
exactly one notification job flagged as heartbeat with the single-attempt
policy `MaxAttempts = 1` and updates the job's progress output record, and
that transaction leaves the queue job uncompleted. -/
theorem c5_heartbeat_single_attempt_atomic (args : TranscodeJobArgs)
    (status : TranscodeJobStatus) (uri : String)
    (h : args.heartbeatWebhookURI = some uri) (s : DBState) (k : ℕ) :
    (runSteps s ((enqueueHeartbeatSteps args status).take k) = s ∨
      runSteps s ((enqueueHeartbeatSteps args status).take k) =
        runSteps s (enqueueHeartbeatSteps args status)) ∧
    (runSteps s (enqueueHeartbeatSteps args status)).webhookJobs =
      s.webhookJobs ++ [(heartbeatWebhookArgs args uri status, some 1)] ∧
    (heartbeatWebhookArgs args uri status).isHeartbeat = true ∧
    (runSteps s (enqueueHeartbeatSteps args status)).output = some status ∧
    (runSteps s (enqueueHeartbeatSteps args status)).jobCompleted = s.jobCompleted := by
  simp only [enqueueHeartbeatSteps, h]
  refine ⟨?_, ?_, rfl, ?_, ?_⟩
  · rcases k with _ | k
    · left
      rfl
    · right
      simp [List.take_succ_cons]
  · simp [runSteps, applyStep, applyEffect]
  · simp [runSteps, applyStep, applyEffect]
  · simp [runSteps, applyStep, applyEffect]

/-- Witness for claim C5: a concrete heartbeat enqueue from the initial
database state, with the full single-step run. -/
theorem c5_heartbeat_single_attempt_atomic_witness :
    (runSteps dbInit ((enqueueHeartbeatSteps c5ExampleArgs ⟨42, none⟩).take 1) = dbInit ∨
      runSteps dbInit ((enqueueHeartbeatSteps c5ExampleArgs ⟨42, none⟩).take 1) =
        runSteps dbInit (enqueueHeartbeatSteps c5ExampleArgs ⟨42, none⟩)) ∧
    (runSteps dbInit (enqueueHeartbeatSteps c5ExampleArgs ⟨42, none⟩)).webhookJobs =
      dbInit.webhookJobs ++
        [(heartbeatWebhookArgs c5ExampleArgs "http://callback.example/beat" ⟨42, none⟩,
          some 1)] ∧
    (heartbeatWebhookArgs c5ExampleArgs "http://callback.example/beat" ⟨42, none⟩).isHeartbeat =
      true ∧
    (runSteps dbInit (enqueueHeartbeatSteps c5ExampleArgs ⟨42, none⟩)).output =
      some ⟨42, none⟩ ∧
    (runSteps dbInit (enqueueHeartbeatSteps c5ExampleArgs ⟨42, none⟩)).jobCompleted =
      dbInit.jobCompleted :=
  c5_heartbeat_single_attempt_atomic c5ExampleArgs ⟨42, none⟩
    "http://callback.example/beat" rfl dbInit 1

/-! ## Claim C6 -/

/-- Claim C6: the status projection maps every queue lifecycle state to
exactly one of the four external statuses — the pre-execution states
(available, scheduled, retryable, pending) and only those project to
Pending, running and only running projects to Running, completed and only
completed projects to Completed, and discarded or cancelled and only those
project to Failed. -/
theorem c6_status_projection (st : JobState) :
    (mapRiverStateToTranscodeStatus st = TranscodeStatus.pending ↔
      (st = JobState.available ∨ st = JobState.scheduled ∨ st = JobState.retryable ∨
        st = JobState.pending)) ∧
    (mapRiverStateToTranscodeStatus st = TranscodeStatus.running ↔ st = JobState.running) ∧
    (mapRiverStateToTranscodeStatus st = TranscodeStatus.completed ↔
      st = JobState.completed) ∧
    (mapRiverStateToTranscodeStatus st = TranscodeStatus.failed ↔
      (st = JobState.discarded ∨ st = JobState.cancelled)) := by
  cases st <;> decide

/-! ## Claim C7 -/

/-- Claim C7 counterexample.  The claim states that the token is always
present in the POSTed JSON payload.  On the code, the `token` field carries
the `omitempty` tag and `WebhookToken` is optional, so a notification job
whose token is empty marshals a body with no token key. -/
theorem c7_counterexample :
    (marshalledFields (buildWebhookPayload c7ExampleArgs)).tokenPresent = false := by
  decide

/-- Claim C7, amended: in the marshalled payload the subject identifier is
always present, the token is present exactly when the opaque token is
nonempty (it is omitted when empty), the progress field is present exactly
when the notification is a heartbeat with a status snapshot, and the error
field is present exactly when the status snapshot carries an error string. -/
theorem c7_amended_payload_field_presence (args : WebhookJobArgs) :
    (marshalledFields (buildWebhookPayload args)).uuidPresent = true ∧
    ((marshalledFields (buildWebhookPayload args)).tokenPresent = true ↔ args.token ≠ []) ∧
    ((marshalledFields (buildWebhookPayload args)).progressPresent = true ↔
      (args.isHeartbeat = true ∧ args.status.isSome = true)) ∧
    ((marshalledFields (buildWebhookPayload args)).errorPresent = true ↔
      (∃ st, args.status = some st ∧ st.error.isSome = true)) := by
  rcases args with ⟨uri, token, uuid, status, isHeartbeat⟩
  rcases status with _ | st <;> rcases isHeartbeat <;>
    simp [marshalledFields, buildWebhookPayload, List.isEmpty_iff]

/-! ## Claim C8 -/

/-- Claim C8: on a log line containing the time-elapsed marker and with a
positive probed total duration, `parseFfmpegProgress` reports a match,
returns the elapsed/total quotient whenever elapsed does not exceed total
and exactly 1 whenever it does, and the returned fraction never exceeds 1. -/
theorem c8_ffmpeg_clamped_fraction (line : String) (d : ℤ) (hh mm ss cc : Nat)
    (hmatch : findTimeMatch line.toList = some (hh, mm, ss, cc)) (hd : 0 < d) :
    (parseFfmpegProgress line d).2 = true ∧
    (parseFfmpegProgress line d).1 ≤ 1 ∧
    (elapsedNs hh mm ss cc ≤ d →
      (parseFfmpegProgress line d).1 = (elapsedNs hh mm ss cc : ℚ) / (d : ℚ)) ∧
    (d < elapsedNs hh mm ss cc → (parseFfmpegProgress line d).1 = 1) := by
  have hdq : (0 : ℚ) < (d : ℚ) := by exact_mod_cast hd
  simp only [parseFfmpegProgress, hmatch]
  rw [if_neg (by omega : ¬ d = 0)]
  by_cases hclamp : 1 < (elapsedNs hh mm ss cc : ℚ) / (d : ℚ)
  · rw [if_pos hclamp]
    refine ⟨rfl, le_refl 1, ?_, fun _ => rfl⟩
    intro hle
    exfalso
    have hle' : (elapsedNs hh mm ss cc : ℚ) / (d : ℚ) ≤ 1 :=
      (div_le_one hdq).mpr (by exact_mod_cast hle)
    exact absurd hclamp (not_lt.mpr hle')
  · rw [if_neg hclamp]
    refine ⟨rfl, le_of_not_lt hclamp, fun _ => rfl, ?_⟩
    intro hlt
    exfalso
    have h1 : 1 < (elapsedNs hh mm ss cc : ℚ) / (d : ℚ) :=
      (one_lt_div hdq).mpr (by exact_mod_cast hlt)
    exact absurd h1 hclamp

/-- Witness for claim C8: a concrete line thirty seconds into a sixty-second
source. -/
theorem c8_ffmpeg_clamped_fraction_witness :
    (parseFfmpegProgress "time=00:00:30.00" 60000000000).2 = true ∧
    (parseFfmpegProgress "time=00:00:30.00" 60000000000).1 ≤ 1 ∧
    (elapsedNs 0 0 30 0 ≤ 60000000000 →
      (parseFfmpegProgress "time=00:00:30.00" 60000000000).1 =
        (elapsedNs 0 0 30 0 : ℚ) / (60000000000 : ℚ)) ∧
    (60000000000 < elapsedNs 0 0 30 0 →
      (parseFfmpegProgress "time=00:00:30.00" 60000000000).1 = 1) :=
  c8_ffmpeg_clamped_fraction "time=00:00:30.00" 60000000000 0 0 30 0 (by decide)
    (by norm_num)

/-! ## Claim C9 -/

/-- Claim C9: for a probed source resolution with positive height, the
preview target height is fixed at 240 and the chosen target width is the
least even integer not below the integer-derived width
`(width * 240) / height` — in particular the chosen target width is always
even. -/
theorem c9_target_width_even (width height : ℤ) (hh : 0 < height) (hw : 0 ≤ width) :
    targetHeight = 240 ∧
    Even (ffmpegTargetWidth width height) ∧
    (width * 240).tdiv height ≤ ffmpegTargetWidth width height ∧
    ffmpegTargetWidth width height ≤ (width * 240).tdiv height + 1 := by
  have hnum : (0 : ℤ) ≤ width * 240 := by positivity
  have hdiv : (width * 240).tdiv height = (width * 240) / height :=
    Int.tdiv_eq_ediv hnum (le_of_lt hh)
  have hq : (0 : ℤ) ≤ (width * 240) / height := Int.ediv_nonneg hnum (le_of_lt hh)
  have hmod : ((width * 240) / height).tmod 2 = ((width * 240) / height) % 2 :=
    Int.tmod_eq_emod hq (by norm_num)
  unfold ffmpegTargetWidth targetHeight
  rw [hdiv, hmod]
  by_cases hpar : ((width * 240) / height) % 2 ≠ 0
  · rw [if_pos hpar]
    refine ⟨rfl, ?_, by omega, by omega⟩
    rw [Int.even_iff]
    omega
  · rw [if_neg hpar]
    refine ⟨rfl, ?_, by omega, by omega⟩
    rw [Int.even_iff]
    omega

/-- Witness for claim C9: a concrete 640x480 source. -/
theorem c9_target_width_even_witness :
    targetHeight = 240 ∧
    Even (ffmpegTargetWidth 640 480) ∧
    ((640 : ℤ) * 240).tdiv 480 ≤ ffmpegTargetWidth 640 480 ∧
    ffmpegTargetWidth 640 480 ≤ ((640 : ℤ) * 240).tdiv 480 + 1 :=
  c9_target_width_even 640 480 (by norm_num) (by norm_num)

/-! ## Claim C10 -/

/-- Claim C10: `parseFfmpegProgress` is total in its duration argument — on
every input line a zero total duration yields `(0, false)` (the
division-by-zero branch is unreachable), and consequently no progress
callback fires on any line of a stream whose probed duration is zero. -/
theorem c10_zero_duration_guard :
    (∀ line : String, parseFfmpegProgress line 0 = (0, false)) ∧
    (∀ lines : List String, ffmpegCallbackValues lines 0 = []) := by
  have hline : ∀ line : String, parseFfmpegProgress line 0 = (0, false) := by
    intro line
    simp only [parseFfmpegProgress]
    split <;> simp
  refine ⟨hline, ?_⟩
  intro lines
  unfold ffmpegCallbackValues
  apply List.filterMap_eq_nil_iff.mpr
  intro line hmem
  rw [hline line]

end VideoTranscoder
